import Mathlib

/-!
Verification of the `fdate` library: a millisecond-precision point-in-time
type (`DateTime`) and a signed duration type (`TimeSpan`), plus a flat
C-callable wrapper.  The embedding below translates the C++ sources
(`src/TimeSpan.hpp`, `src/DateTime.hpp`, `src/datetime_wrapper.cpp`) into
Lean definitions over `Int`.  Machine `int64_t` arithmetic is modelled as
`Int` together with an explicit two's-complement wrap (`wrap64`) at the
points where an `int64_t` operation can overflow; C++ `/` on integers
truncates toward zero and is modelled by `Int.tdiv` where an operand can be
negative, and by `/` (Euclidean division, which agrees with truncation on
nonnegative operands) elsewhere.

The calendar conversions used by `DateTime` (`date::sys_days`,
`date::year_month_day`, `date::from_stream`, `date::to_stream`) live in
the vendored header `date_hh.h`, which is not part of the sources given;
those parts are modelled from the specification's words (proleptic
Gregorian calendar, leap rule "divisible by 4, and not by 100 unless also
by 400", month-length tables, epoch 1970-01-01, strftime-style tokens) and
are marked `Modelled from the spec` below.
-/

/-- Two's-complement wraparound of a mathematical integer into the signed
64-bit range, the value an `int64_t` holds after an overflowing operation
on mainstream (two's complement) targets. -/
def wrap64 (x : Int) : Int :=
  (x + 9223372036854775808) % 18446744073709551616 - 9223372036854775808

/-- The signed 64-bit range, the set of values an `int64_t` can hold. -/
def isInt64 (x : Int) : Prop :=
  -9223372036854775808 ≤ x ∧ x < 9223372036854775808

instance (x : Int) : Decidable (isInt64 x) := by unfold isInt64; infer_instance

namespace date

/-- Modelled from the spec: the proleptic-Gregorian leap-year rule, "a year
is a leap year iff divisible by 4, and not by 100 unless also by 400"
(spec section 4.2); implemented in the missing `date_hh.h` header as
`date::year::is_leap`. -/
def is_leap (y : Int) : Bool :=
  decide ((y % 4 = 0 ∧ ¬ y % 100 = 0) ∨ y % 400 = 0)

/-- Modelled from the spec: number of days from civil day 0000-01-01 to
day y-01-01 in the proleptic Gregorian calendar (365 per year plus one
per leap year strictly before `y`). -/
def days_before_year (y : Int) : Int :=
  365 * y + (y + 3) / 4 - (y + 99) / 100 + (y + 399) / 400

/-- Modelled from the spec: cumulative days before month `m` (1-based)
inside one year, from the month-length table 31/28(+leap)/31/30/31/30/31/
31/30/31/30/31 (spec section 4.2). -/
def days_before_month (leap : Bool) (m : Int) : Int :=
  let l : Int := if leap then 1 else 0
  if m ≤ 1 then 0
  else if m = 2 then 31
  else if m = 3 then 59 + l
  else if m = 4 then 90 + l
  else if m = 5 then 120 + l
  else if m = 6 then 151 + l
  else if m = 7 then 181 + l
  else if m = 8 then 212 + l
  else if m = 9 then 243 + l
  else if m = 10 then 273 + l
  else if m = 11 then 304 + l
  else 334 + l

/-- Modelled from the spec: the month-length table itself (spec section
4.2, "month-length tables"), parameterized by the leap flag. -/
def month_len (leap : Bool) (m : Int) : Int :=
  if m = 2 then (if leap then 29 else 28)
  else if m = 4 ∨ m = 6 ∨ m = 9 ∨ m = 11 then 30
  else 31

/-- Modelled from the spec: the number of days of month `m` of year `y`,
with February depending on the leap rule. -/
def last_day_of_month (y m : Int) : Int := month_len (is_leap y) m

/-- Modelled from the spec: `date::sys_days` of a `year/month/day` triple,
as days since the epoch 1970-01-01 (= civil day 719528 counted from
0000-01-01).  Out-of-range month values overflow into subsequent years and
out-of-range day values into subsequent months (spec sections 4.2 and 7:
"normalized by the underlying calendar arithmetic"). -/
def days_from_civil (y m d : Int) : Int :=
  let ym := y + (m - 1) / 12
  let mm := (m - 1) % 12 + 1
  days_before_year ym + days_before_month (is_leap ym) mm + (d - 1) - 719528

/-- Modelled from the spec: select the year-of-era (0..399) containing day
`doe` (0..146096) of a 400-year era, by the estimate `doe / 366` corrected
upward by at most one. -/
def yoe_from_doe (doe : Int) : Int :=
  let y0 := doe / 366
  if doe < days_before_year (y0 + 1) then y0 else y0 + 1

/-- Modelled from the spec: find the month (1..12) containing day-of-year
`doy` (0-based) by scanning the cumulative month table. -/
def month_from_doy (leap : Bool) (doy : Int) : Int :=
  let l : Int := if leap then 1 else 0
  if doy < 31 then 1
  else if doy < 59 + l then 2
  else if doy < 90 + l then 3
  else if doy < 120 + l then 4
  else if doy < 151 + l then 5
  else if doy < 181 + l then 6
  else if doy < 212 + l then 7
  else if doy < 243 + l then 8
  else if doy < 273 + l then 9
  else if doy < 304 + l then 10
  else if doy < 334 + l then 11
  else 12

/-- Modelled from the spec: `date::year_month_day` of a day count since
the epoch 1970-01-01 — the inverse calendar conversion, composed of the
era split, year-of-era selection and month scan above. -/
def civil_from_days (z : Int) : Int × Int × Int :=
  let n := z + 719528
  let era := n / 146097
  let doe := n % 146097
  let yoe := yoe_from_doe doe
  let doy := doe - days_before_year yoe
  let leap := is_leap yoe
  let m := month_from_doy leap doy
  let d := doy - days_before_month leap m + 1
  (era * 400 + yoe, m, d)

end date

/-- The decimal digit character for `n < 10` (ASCII '0' is 48). -/
def digitChar (n : Nat) : Char := Char.ofNat (48 + n)

/-- The numeric value of a decimal digit character. -/
def digitVal (c : Char) : Nat := c.toNat - 48

/-- Whether a character is a decimal digit. -/
def isDigitB (c : Char) : Bool := decide (48 ≤ c.toNat ∧ c.toNat ≤ 57)

/-- Fuel-driven helper for `natChars`; for `n ≤ fuel` the fuel never runs
out (division by 10 shrinks `n` faster than the fuel), so the fuel is only
a device to make the recursion structural. -/
def natCharsFuel : Nat → Nat → List Char
  | 0, n => [digitChar n]
  | fuel + 1, n =>
    if n < 10 then [digitChar n]
    else natCharsFuel fuel (n / 10) ++ [digitChar (n % 10)]

/-- Big-endian decimal digit characters of a natural number, as the C++
stream insertion `operator<<` renders it. -/
def natChars (n : Nat) : List Char := natCharsFuel n n

/-- Decimal rendering of an integer: minus sign followed by digits, as the
C++ stream insertion `operator<<` renders an `int64_t`. -/
def intChars (i : Int) : List Char :=
  if i < 0 then '-' :: natChars i.natAbs else natChars i.toNat

/-- Pad a character list on the left with `c` up to width `w`. -/
def padLeft (c : Char) (w : Nat) (l : List Char) : List Char :=
  List.replicate (w - l.length) c ++ l

/-- `std::setfill('0') << std::setw(w) << i`: the rendered number padded on
the left with '0' to width `w` (iostream default right-adjustment places
the fill characters before the whole converted text, sign included). -/
def padNum (w : Nat) (i : Int) : List Char := padLeft '0' w (intChars i)

/-- Value of a big-endian list of decimal digit characters. -/
def charsToNat (l : List Char) : Nat :=
  l.foldl (fun acc c => 10 * acc + digitVal c) 0

/-- Split a character list into its longest prefix of decimal digits and
the remainder. -/
def spanDigits : List Char → List Char × List Char
  | [] => ([], [])
  | c :: cs =>
    if isDigitB c then
      let p := spanDigits cs
      (c :: p.1, p.2)
    else ([], c :: cs)

namespace TimeSpan

/-- The decomposed components of a `TimeSpan`
(`TimeSpan::s_TimespanComponents`, `src/TimeSpan.hpp` lines 69-75; the
canonical variant stores `int64_t` fields). -/
structure s_TimespanComponents where
  days : Int
  hours : Int
  minutes : Int
  seconds : Int
  milliseconds : Int
deriving DecidableEq

/-- `TimeSpan::to_components` (`src/TimeSpan.hpp` lines 248-294): take the
absolute value (an `int64_t` negation, which wraps at the most negative
value), peel off days, hours, minutes, seconds and milliseconds by
truncating division (`std::chrono::duration_cast`), then negate every
component if the input was negative. -/
def to_components (duration_ms : Int) : s_TimespanComponents :=
  let negative := duration_ms < 0
  let a := if negative then wrap64 (-duration_ms) else duration_ms
  let n_days := a.tdiv 86400000
  let r1 := a - n_days * 86400000
  let n_hours := r1.tdiv 3600000
  let r2 := r1 - n_hours * 3600000
  let n_minutes := r2.tdiv 60000
  let r3 := r2 - n_minutes * 60000
  let n_seconds := r3.tdiv 1000
  let n_milliseconds := r3 - n_seconds * 1000
  if negative then
    ⟨-n_days, -n_hours, -n_minutes, -n_seconds, -n_milliseconds⟩
  else
    ⟨n_days, n_hours, n_minutes, n_seconds, n_milliseconds⟩

/-- The `TimeSpan(const s_TimespanComponents&)` constructor
(`src/TimeSpan.hpp` lines 102-107): sum of the millisecond-equivalents of
the five components, accumulated in `std::chrono::milliseconds` (an
`int64_t` representation, hence wrapped). -/
def ofComponents (c : s_TimespanComponents) : Int :=
  wrap64 (86400000 * c.days + 3600000 * c.hours + 60000 * c.minutes +
    1000 * c.seconds + c.milliseconds)

/-- `TimeSpan::fromDays` (`src/TimeSpan.hpp` lines 162-165). -/
def fromDays (days : Int) : Int := ofComponents ⟨days, 0, 0, 0, 0⟩

/-- `TimeSpan::fromHours`. -/
def fromHours (hours : Int) : Int := ofComponents ⟨0, hours, 0, 0, 0⟩

/-- `TimeSpan::fromMinutes`. -/
def fromMinutes (minutes : Int) : Int := ofComponents ⟨0, 0, minutes, 0, 0⟩

/-- `TimeSpan::fromSeconds`. -/
def fromSeconds (seconds : Int) : Int := ofComponents ⟨0, 0, 0, seconds, 0⟩

/-- `TimeSpan::fromMilliseconds`. -/
def fromMilliseconds (milliseconds : Int) : Int :=
  ofComponents ⟨0, 0, 0, 0, milliseconds⟩

/-- The five-argument `TimeSpan(days, hours, minutes, seconds,
milliseconds)` constructor (`src/TimeSpan.hpp` lines 123-127). -/
def ofFields (days hours minutes seconds milliseconds : Int) : Int :=
  ofComponents ⟨days, hours, minutes, seconds, milliseconds⟩

/-- `TimeSpan::totalMilliseconds` (`src/TimeSpan.hpp` lines 430-432): the
raw scalar state. -/
def totalMilliseconds (t : Int) : Int := t

/-- `TimeSpan::operator+` (`src/TimeSpan.hpp` lines 459-463): the
`int64_t` sum of the two scalars, re-expressed through component
decomposition and recomposition. -/
def add (a b : Int) : Int := ofComponents (to_components (wrap64 (a + b)))

/-- `TimeSpan::operator-` (`src/TimeSpan.hpp` lines 473-477). -/
def sub (a b : Int) : Int := ofComponents (to_components (wrap64 (a - b)))

/-- `TimeSpan::operator*` (`src/TimeSpan.hpp` lines 488-491). -/
def mul (a factor : Int) : Int :=
  ofComponents (to_components (wrap64 (a * factor)))

/-- `TimeSpan::operator/` (`src/TimeSpan.hpp` lines 503-506): the raw C++
integer division `duration_.count() / divisor` (truncating toward zero),
with no check of the divisor, re-expressed through components.  C++
division by zero is undefined behavior; `Int.tdiv _ 0 = 0` stands in for
the unchecked operation here. -/
def div (a divisor : Int) : Int :=
  ofComponents (to_components (a.tdiv divisor))

/-- `TimeSpan::toString` (`src/TimeSpan.hpp` lines 598-612): optional
"{days}d " prefix when the days component is nonzero, two-digit
zero-padded hours:minutes:seconds, and a three-digit ".mmm" suffix only
when the milliseconds component is nonzero. -/
def toString_model (t : Int) : List Char :=
  let c := to_components t
  (if c.days ≠ 0 then intChars c.days ++ ('d' :: ' ' :: []) else []) ++
  padNum 2 c.hours ++ ':' :: padNum 2 c.minutes ++ ':' :: padNum 2 c.seconds ++
  (if c.milliseconds ≠ 0 then '.' :: padNum 3 c.milliseconds else [])

end TimeSpan

/-- `f_timespan_add` (`src/datetime_wrapper.cpp` lines 192-194): the
bridge adds the two raw `int64_t` millisecond scalars directly. -/
def f_timespan_add (ts1_ms ts2_ms : Int) : Int := wrap64 (ts1_ms + ts2_ms)

/-- `f_timespan_subtract` (`src/datetime_wrapper.cpp` lines 203-206). -/
def f_timespan_subtract (ts1_ms ts2_ms : Int) : Int :=
  wrap64 (ts1_ms - ts2_ms)

/-- Follows the spec's words, not the source (spec section 7: "the
specification mandates an implementer surface this as an explicit failure
(e.g., a raised error or a checked result)"): division with an explicit
checked failure on a zero divisor, for comparison with the unchecked
`TimeSpan.div` of the code. -/
def div_checked (t divisor : Int) : Option Int :=
  if divisor = 0 then none else some (t.tdiv divisor)

namespace DateTime

/-- `date::floor<date::days>` applied to the stored time point
(`src/DateTime.hpp` lines 110-151): the day number containing `t`,
truncated toward negative infinity (Euclidean division by a positive
divisor is floor division). -/
def dayNumber (t : Int) : Int := t / 86400000

/-- `DateTime::year` (`src/DateTime.hpp` lines 110-113). -/
def year (t : Int) : Int := (date.civil_from_days (dayNumber t)).1

/-- `DateTime::month` (`src/DateTime.hpp` lines 115-118). -/
def month (t : Int) : Int := (date.civil_from_days (dayNumber t)).2.1

/-- `DateTime::day` (`src/DateTime.hpp` lines 120-123). -/
def day (t : Int) : Int := (date.civil_from_days (dayNumber t)).2.2

/-- `m_tp - date::floor<date::days>(m_tp)`: milliseconds since local
midnight, always in `[0, 86400000)`. -/
def time_since_midnight (t : Int) : Int := t - 86400000 * dayNumber t

/-- `DateTime::hour` (`src/DateTime.hpp` lines 125-128). -/
def hour (t : Int) : Int := time_since_midnight t / 3600000

/-- `DateTime::minute` (`src/DateTime.hpp` lines 130-135). -/
def minute (t : Int) : Int :=
  (time_since_midnight t - 3600000 * hour t) / 60000

/-- `DateTime::second` (`src/DateTime.hpp` lines 137-143). -/
def second (t : Int) : Int :=
  (time_since_midnight t - 3600000 * hour t - 60000 * minute t) / 1000

/-- `DateTime::millisecond` (`src/DateTime.hpp` lines 145-151): what
remains of the intra-day offset after hours, minutes and seconds are
peeled off (division by `std::chrono::milliseconds(1)`). -/
def millisecond (t : Int) : Int :=
  time_since_midnight t - 3600000 * hour t - 60000 * minute t -
    1000 * second t

/-- The `DateTime(year, month, day, hour, minute, second, millisecond)`
constructor (`src/DateTime.hpp` lines 29-37): `date::sys_days` of the
calendar date plus the time-of-day fields, in milliseconds. -/
def of_fields (y m d h mi s ms : Int) : Int :=
  date.days_from_civil y m d * 86400000 + h * 3600000 + mi * 60000 +
    s * 1000 + ms

/-- `DateTime::operator+(const TimeSpan&)` (`src/DateTime.hpp` lines
158-160): shift the stored time point by the span's milliseconds. -/
def add_timespan (t ts : Int) : Int := t + ts

/-- The millisecond-detection test of `DateTime::parse`
(`src/DateTime.hpp` line 61): the string has at least 4 characters and
the 4th from the end is a period. -/
def hasMsDot (l : List Char) : Bool :=
  match l.reverse with
  | _ :: _ :: _ :: c :: _ => decide (c = '.')
  | _ => false

/-- Modelled from the spec: `date::to_stream` rendering of the `%Y` token
("%Y 4+ digit year", spec section 4.2): sign followed by the magnitude
zero-padded to at least four digits. -/
def yearChars (y : Int) : List Char :=
  if y < 0 then '-' :: padLeft '0' 4 (natChars y.natAbs)
  else padLeft '0' 4 (natChars y.toNat)

/-- Modelled from the spec: the text emitted for one strftime-style token
(spec section 4.2: `%Y` year, `%m` 2-digit month, `%d` 2-digit day,
`%H`/`%M`/`%S` 2-digit time fields; at millisecond precision `%S` carries
a 3-digit fractional part). -/
def fieldChars (msMode : Bool) (t : Int) (c : Char) : List Char :=
  if c = 'Y' then yearChars (year t)
  else if c = 'm' then padNum 2 (month t)
  else if c = 'd' then padNum 2 (day t)
  else if c = 'H' then padNum 2 (hour t)
  else if c = 'M' then padNum 2 (minute t)
  else if c = 'S' then
    padNum 2 (second t) ++
      (if msMode then '.' :: padNum 3 (millisecond t) else [])
  else []

/-- Modelled from the spec: `date::to_stream` — walk the format string,
emitting field text for `%`-tokens and literal characters otherwise. -/
def to_stream (msMode : Bool) (fmt : List Char) (t : Int) : List Char :=
  match fmt with
  | [] => []
  | a :: tail =>
    if a = '%' then
      match tail with
      | [] => []
      | b :: rest => fieldChars msMode t b ++ to_stream msMode rest t
    else a :: to_stream msMode tail t

/-- `DateTime::format_w_milliseconds` (`src/DateTime.hpp` lines 93-98):
format the full millisecond-precision time point. -/
def format_w_milliseconds (t : Int) (fmt : List Char) : List Char :=
  to_stream true fmt t

/-- The calendar fields accumulated by parsing
(`date::fields`, modelled from the spec). -/
structure ParseFields where
  y : Int
  m : Nat
  d : Nat
  h : Nat
  mi : Nat
  s : Nat
  ms : Nat
deriving DecidableEq

/-- Read the longest nonempty prefix of decimal digits as a natural
number. -/
def readNat (l : List Char) : Option (Nat × List Char) :=
  let p := spanDigits l
  if p.1 = [] then none else some (charsToNat p.1, p.2)

/-- Read an optionally minus-signed decimal integer (for `%Y`). -/
def readInt (l : List Char) : Option (Int × List Char) :=
  match l with
  | [] => none
  | c :: rest =>
    if c = '-' then
      match readNat rest with
      | some (v, r) => some (-(v : Int), r)
      | none => none
    else
      match readNat (c :: rest) with
      | some (v, r) => some ((v : Int), r)
      | none => none

/-- Read one or two decimal digits (for the 2-digit tokens). -/
def read2 (l : List Char) : Option (Nat × List Char) :=
  match l with
  | [] => none
  | c1 :: r1 =>
    if isDigitB c1 then
      match r1 with
      | [] => some (digitVal c1, [])
      | c2 :: r2 =>
        if isDigitB c2 then some (10 * digitVal c1 + digitVal c2, r2)
        else some (digitVal c1, r1)
    else none

/-- Read exactly three decimal digits (the millisecond fraction). -/
def read3 (l : List Char) : Option (Nat × List Char) :=
  match l with
  | c1 :: c2 :: c3 :: r =>
    if isDigitB c1 && isDigitB c2 && isDigitB c3 then
      some (100 * digitVal c1 + 10 * digitVal c2 + digitVal c3, r)
    else none
  | _ => none

/-- Modelled from the spec: reading the field of one strftime-style token
`b` from the input, returning the updated fields and remaining input.  At
millisecond precision, `%S` additionally requires a period and a 3-digit
fraction; otherwise milliseconds are set to 0. -/
def readTok (msMode : Bool) (b : Char) (input : List Char)
    (st : ParseFields) : Option (ParseFields × List Char) :=
  if b = 'Y' then
    match readInt input with
    | some (v, r) => some ({ st with y := v }, r)
    | none => none
  else if b = 'm' then
    match read2 input with
    | some (v, r) => some ({ st with m := v }, r)
    | none => none
  else if b = 'd' then
    match read2 input with
    | some (v, r) => some ({ st with d := v }, r)
    | none => none
  else if b = 'H' then
    match read2 input with
    | some (v, r) => some ({ st with h := v }, r)
    | none => none
  else if b = 'M' then
    match read2 input with
    | some (v, r) => some ({ st with mi := v }, r)
    | none => none
  else if b = 'S' then
    match read2 input with
    | some (v, r) =>
      if msMode then
        match r with
        | '.' :: r2 =>
          match read3 r2 with
          | some (w, r3) => some ({ st with s := v, ms := w }, r3)
          | none => none
        | _ => none
      else some ({ st with s := v, ms := 0 }, r)
    | none => none
  else none

/-- Modelled from the spec: `date::from_stream` — walk the format string
against the input, reading fields at `%`-tokens and matching literal
characters; fail (`none`) when the text does not conform to the pattern
or when input remains after the pattern is exhausted (spec section 4.2:
"conforms but leaves unconsumed/invalid trailing content" is a
failure). -/
def from_stream (msMode : Bool) (fmt : List Char) (input : List Char)
    (st : ParseFields) : Option ParseFields :=
  match fmt with
  | [] => if input = [] then some st else none
  | a :: tail =>
    if a = '%' then
      match tail with
      | [] => none
      | b :: rest =>
        (readTok msMode b input st).bind fun p =>
          from_stream msMode rest p.2 p.1
    else
      match input with
      | i :: irest =>
        if i = a then from_stream msMode tail irest st else none
      | [] => none

/-- `DateTime::parse` (`src/DateTime.hpp` lines 53-78): pick millisecond
or second resolution by `hasMsDot`, run the stream parse, and return no
value on failure; a successful parse assembles the time point from the
parsed fields. -/
def parse (str fmt : List Char) : Option Int :=
  match from_stream (hasMsDot str) fmt str ⟨0, 1, 1, 0, 0, 0, 0⟩ with
  | some st => some (of_fields st.y st.m st.d st.h st.mi st.s st.ms)
  | none => none

/-- The default format string `"%Y-%m-%d %H:%M:%S"` of `DateTime::parse`
and `DateTime::format` (`src/DateTime.hpp` line 54). -/
def default_format : List Char :=
  ['%', 'Y', '-', '%', 'm', '-', '%', 'd', ' ',
   '%', 'H', ':', '%', 'M', ':', '%', 'S']

end DateTime

-- sanity checks of the calendar model on known dates
example : date.civil_from_days 0 = (1970, 1, 1) := by decide
example : date.civil_from_days 19023 = (2022, 1, 31) := by decide
example : date.days_from_civil 2022 1 31 = 19023 := by decide
example : date.days_from_civil 1970 1 1 = 0 := by decide
example : date.days_before_year 1970 = 719528 := by decide
example : date.civil_from_days (-1) = (1969, 12, 31) := by decide
example : date.days_from_civil 1969 12 31 = -1 := by decide
example : date.days_from_civil 2020 2 29 = 18321 := by decide
example : date.civil_from_days 18321 = (2020, 2, 29) := by decide
example : DateTime.default_format = "%Y-%m-%d %H:%M:%S".data := by decide

/-- Splitting a 400-year era out of the cumulative day count: each era has
exactly 146097 days. -/
theorem date.dby_mul400 (e x : Int) :
    date.days_before_year (e * 400 + x) = e * 146097 + date.days_before_year x := by
  simp only [date.days_before_year]
  omega

/-- The leap-year rule only depends on the year modulo 400. -/
theorem date.is_leap_mul400 (e x : Int) :
    date.is_leap (e * 400 + x) = date.is_leap x := by
  simp only [date.is_leap]
  exact decide_eq_decide.mpr (by omega)

/-- A year has 366 days exactly when it is a leap year. -/
theorem date.dby_succ (y : Int) :
    date.days_before_year (y + 1) =
      date.days_before_year y + (if date.is_leap y then 366 else 365) := by
  simp only [date.days_before_year, date.is_leap]
  split_ifs with h
  · rw [decide_eq_true_eq] at h
    omega
  · simp only [decide_eq_true_eq] at h
    omega

/-- The estimate-and-adjust year-of-era selection is correct: the selected
year is in 0..399 and its day range contains `doe`. -/
theorem date.yoe_sel (doe : Int) (h0 : 0 ≤ doe) (h1 : doe < 146097) :
    0 ≤ date.yoe_from_doe doe ∧ date.yoe_from_doe doe ≤ 399 ∧
    date.days_before_year (date.yoe_from_doe doe) ≤ doe ∧
    doe < date.days_before_year (date.yoe_from_doe doe + 1) := by
  simp only [date.yoe_from_doe, date.days_before_year]
  split_ifs with h
  · omega
  · omega

set_option maxHeartbeats 1600000 in
/-- The month scan is correct: the selected month is 1..12, its cumulative
start is at most `doy`, and `doy` is strictly before the start of the next
month (equivalently, the day offset fits the month length). -/
theorem date.month_sel (leap : Bool) (doy : Int) (h0 : 0 ≤ doy)
    (h1 : doy < 365 + (if leap then 1 else 0)) :
    1 ≤ date.month_from_doy leap doy ∧ date.month_from_doy leap doy ≤ 12 ∧
    date.days_before_month leap (date.month_from_doy leap doy) ≤ doy ∧
    doy < date.days_before_month leap (date.month_from_doy leap doy) +
      date.month_len leap (date.month_from_doy leap doy) := by
  cases leap
  all_goals norm_num at h1
  all_goals simp only [date.month_from_doy]
  all_goals norm_num
  all_goals split_ifs
  all_goals norm_num [date.days_before_month, date.month_len]
  all_goals omega

set_option maxHeartbeats 1600000 in
/-- Correctness of `civil_from_days`, stated over named intermediate
values: the month and day are valid for the returned year, and
`days_from_civil` maps the triple back to the original day number. -/
theorem date.civil_assembly (z n era doe yoe doy m d : Int) (leap : Bool)
    (hn : n = z + 719528)
    (hera : era = n / 146097)
    (hdoe : doe = n % 146097)
    (hyoe : yoe = date.yoe_from_doe doe)
    (hdoy : doy = doe - date.days_before_year yoe)
    (hleap : leap = date.is_leap yoe)
    (hm : m = date.month_from_doy leap doy)
    (hd : d = doy - date.days_before_month leap m + 1) :
    1 ≤ m ∧ m ≤ 12 ∧ 1 ≤ d ∧
    d ≤ date.month_len (date.is_leap (era * 400 + yoe)) m ∧
    date.days_from_civil (era * 400 + yoe) m d = z := by
  have hdoe0 : 0 ≤ doe := by omega
  have hdoe1 : doe < 146097 := by omega
  have hy := date.yoe_sel doe hdoe0 hdoe1
  rw [← hyoe] at hy
  have hsucc := date.dby_succ yoe
  rw [← hleap] at hsucc
  have hdoy0 : 0 ≤ doy := by omega
  have hdoy1 : doy < 365 + (if leap then 1 else 0) := by
    cases leap
    · norm_num at hsucc ⊢
      omega
    · norm_num at hsucc ⊢
      omega
  have hmo := date.month_sel leap doy hdoy0 hdoy1
  rw [← hm] at hmo
  have hleq : date.is_leap (era * 400 + yoe) = leap := by
    rw [date.is_leap_mul400, hleap]
  refine ⟨hmo.1, hmo.2.1, by omega, ?_, ?_⟩
  · rw [hleq]
    omega
  · simp only [date.days_from_civil]
    have e1 : (m - 1) / 12 = 0 := by omega
    have e2 : (m - 1) % 12 + 1 = m := by omega
    rw [e1, add_zero, e2, date.dby_mul400, hleq]
    omega

/-- Correctness of `civil_from_days`, stated over the function itself:
valid month, valid day-of-month, and the `days_from_civil` round trip. -/
theorem date.civil_spec (z : Int) :
    1 ≤ (date.civil_from_days z).2.1 ∧ (date.civil_from_days z).2.1 ≤ 12 ∧
    1 ≤ (date.civil_from_days z).2.2 ∧
    (date.civil_from_days z).2.2 ≤
      date.last_day_of_month (date.civil_from_days z).1
        (date.civil_from_days z).2.1 ∧
    date.days_from_civil (date.civil_from_days z).1
      (date.civil_from_days z).2.1 (date.civil_from_days z).2.2 = z := by
  simp only [date.civil_from_days, date.last_day_of_month]
  exact date.civil_assembly z _ _ _ _ _ _ _ _ rfl rfl rfl rfl rfl rfl rfl rfl

/-- The intra-day peel of the getters: hours, minutes, seconds and
milliseconds are within their ranges and recompose, together with the
floored day number, to the exact timestamp. -/
theorem DateTime.hms_spec (t : Int) :
    0 ≤ DateTime.hour t ∧ DateTime.hour t ≤ 23 ∧
    0 ≤ DateTime.minute t ∧ DateTime.minute t ≤ 59 ∧
    0 ≤ DateTime.second t ∧ DateTime.second t ≤ 59 ∧
    0 ≤ DateTime.millisecond t ∧ DateTime.millisecond t ≤ 999 ∧
    86400000 * DateTime.dayNumber t + 3600000 * DateTime.hour t +
      60000 * DateTime.minute t + 1000 * DateTime.second t +
      DateTime.millisecond t = t := by
  simp only [DateTime.hour, DateTime.minute, DateTime.second,
    DateTime.millisecond, DateTime.time_since_midnight, DateTime.dayNumber]
  omega

/-- Reconstructing a `DateTime` from its own extracted calendar fields
reproduces the timestamp exactly. -/
theorem DateTime.extract_reconstruct (t : Int) :
    DateTime.of_fields (DateTime.year t) (DateTime.month t) (DateTime.day t)
      (DateTime.hour t) (DateTime.minute t) (DateTime.second t)
      (DateTime.millisecond t) = t := by
  have hc := date.civil_spec (DateTime.dayNumber t)
  have hh := DateTime.hms_spec t
  simp only [DateTime.of_fields, DateTime.year, DateTime.month, DateTime.day]
  rw [hc.2.2.2.2]
  omega

/-- `wrap64` is the identity on the signed 64-bit range. -/
theorem wrap64_eq_of (x y : Int) (hy : isInt64 y) (h : x = y) :
    wrap64 x = y := by
  subst h
  unfold wrap64 isInt64 at *
  omega

/-- `wrap64` always lands in the signed 64-bit range. -/
theorem wrap64_mem (x : Int) : isInt64 (wrap64 x) := by
  unfold wrap64 isInt64
  omega

/-- On a nonnegative input the decomposition chain is plain division and
remainder peeling. -/
theorem TimeSpan.to_components_nonneg (t : Int) (h : 0 ≤ t) :
    TimeSpan.to_components t =
      ⟨t / 86400000, t % 86400000 / 3600000, t % 3600000 / 60000,
       t % 60000 / 1000, t % 1000⟩ := by
  simp only [TimeSpan.to_components]
  split_ifs with h1
  · exact absurd h1 (by omega)
  · rw [Int.tdiv_eq_ediv h (by decide)]
    rw [Int.tdiv_eq_ediv (by omega : (0:Int) ≤ t - t / 86400000 * 86400000)
      (by decide)]
    rw [Int.tdiv_eq_ediv (by omega :
      (0:Int) ≤ t - t / 86400000 * 86400000 -
        (t - t / 86400000 * 86400000) / 3600000 * 3600000) (by decide)]
    rw [Int.tdiv_eq_ediv (by omega :
      (0:Int) ≤ t - t / 86400000 * 86400000 -
        (t - t / 86400000 * 86400000) / 3600000 * 3600000 -
        (t - t / 86400000 * 86400000 -
          (t - t / 86400000 * 86400000) / 3600000 * 3600000) / 60000 * 60000)
      (by decide)]
    congr 1 <;> omega

/-- On a negative input other than the most negative `int64_t`, the
decomposition is the negated decomposition of the absolute value. -/
theorem TimeSpan.to_components_neg (t : Int) (h0 : t < 0)
    (h1 : -9223372036854775808 < t) :
    TimeSpan.to_components t =
      ⟨-(-t / 86400000), -(-t % 86400000 / 3600000), -(-t % 3600000 / 60000),
       -(-t % 60000 / 1000), -(-t % 1000)⟩ := by
  simp only [TimeSpan.to_components]
  split_ifs
  · have hw : wrap64 (-t) = -t := by
      unfold wrap64
      omega
    rw [hw]
    rw [Int.tdiv_eq_ediv (by omega : (0:Int) ≤ -t) (by decide)]
    rw [Int.tdiv_eq_ediv (by omega : (0:Int) ≤ -t - -t / 86400000 * 86400000)
      (by decide)]
    rw [Int.tdiv_eq_ediv (by omega :
      (0:Int) ≤ -t - -t / 86400000 * 86400000 -
        (-t - -t / 86400000 * 86400000) / 3600000 * 3600000) (by decide)]
    rw [Int.tdiv_eq_ediv (by omega :
      (0:Int) ≤ -t - -t / 86400000 * 86400000 -
        (-t - -t / 86400000 * 86400000) / 3600000 * 3600000 -
        (-t - -t / 86400000 * 86400000 -
          (-t - -t / 86400000 * 86400000) / 3600000 * 3600000) / 60000 *
          60000) (by decide)]
    congr 1 <;> omega

/-- Recomposition is the exact inverse of decomposition on the whole
signed 64-bit range (at the most negative value the `int64_t` negation
and the recomposing sum both wrap, and the wraps cancel). -/
theorem TimeSpan.ofComponents_to_components (t : Int) (h : isInt64 t) :
    TimeSpan.ofComponents (TimeSpan.to_components t) = t := by
  by_cases hmin : t = -9223372036854775808
  · subst hmin
    decide
  · rcases le_or_lt 0 t with hp | hn
    · rw [TimeSpan.to_components_nonneg t hp]
      simp only [TimeSpan.ofComponents]
      exact wrap64_eq_of _ _ h (by omega)
    · rw [TimeSpan.to_components_neg t hn (by unfold isInt64 at h; omega)]
      simp only [TimeSpan.ofComponents]
      exact wrap64_eq_of _ _ h (by omega)

/-- A truncated quotient of an `int64_t` by a nonzero divisor stays in the
signed 64-bit range, except for the overflowing pair
(most negative value, -1). -/
theorem isInt64_tdiv (t n : Int) (ht : isInt64 t) (hn : n ≠ 0)
    (hx : ¬(t = -9223372036854775808 ∧ n = -1)) : isInt64 (t.tdiv n) := by
  rcases eq_or_ne n 1 with h1 | h1
  · subst h1
    rw [Int.tdiv_one]
    exact ht
  rcases eq_or_ne n (-1) with h2 | h2
  · subst h2
    rw [show ((-1 : Int)) = -(1 : Int) from rfl, Int.tdiv_neg, Int.tdiv_one]
    unfold isInt64 at *
    omega
  · have habs : (t.tdiv n).natAbs = t.natAbs / n.natAbs :=
      Int.natAbs_tdiv t n
    have h2le : 2 ≤ n.natAbs := by omega
    have hle : t.natAbs / n.natAbs ≤ t.natAbs / 2 :=
      Nat.div_le_div_left h2le (by omega)
    generalize hq : t.tdiv n = q at habs
    unfold isInt64 at *
    omega

/-- C1: for every signed 64-bit millisecond total `t`, summing the
millisecond-equivalents of the five decomposed fields (days, hours,
minutes, seconds, milliseconds — the `TimeSpan` components constructor)
reproduces `t` exactly. -/
theorem claim_c1_decompose_recompose (t : Int) (h : isInt64 t) :
    TimeSpan.ofComponents (TimeSpan.to_components t) = t :=
  TimeSpan.ofComponents_to_components t h

/-- Witness for C1 at a concrete negative input. -/
theorem claim_c1_decompose_recompose_witness :
    isInt64 (-98765432101) ∧
    TimeSpan.ofComponents (TimeSpan.to_components (-98765432101)) =
      -98765432101 :=
  ⟨by decide, claim_c1_decompose_recompose (-98765432101) (by decide)⟩

/-- C3: `TimeSpan` addition and subtraction, although internally
re-expressed through component decomposition and recomposition, never
alter the numeric result: the through-components path equals the direct
`int64_t` scalar sum/difference, which is exactly what the flat wrapper
`f_timespan_add`/`f_timespan_subtract` computes. -/
theorem claim_c3_arith_through_components (a b : Int)
    (ha : isInt64 a) (hb : isInt64 b) :
    TimeSpan.totalMilliseconds (TimeSpan.add a b) =
      wrap64 (TimeSpan.totalMilliseconds a + TimeSpan.totalMilliseconds b) ∧
    TimeSpan.totalMilliseconds (TimeSpan.sub a b) =
      wrap64 (TimeSpan.totalMilliseconds a - TimeSpan.totalMilliseconds b) ∧
    TimeSpan.add a b = f_timespan_add a b ∧
    TimeSpan.sub a b = f_timespan_subtract a b := by
  have h1 : TimeSpan.add a b = wrap64 (a + b) :=
    TimeSpan.ofComponents_to_components _ (wrap64_mem _)
  have h2 : TimeSpan.sub a b = wrap64 (a - b) :=
    TimeSpan.ofComponents_to_components _ (wrap64_mem _)
  exact ⟨h1, h2, h1, h2⟩

/-- Witness for C3 at concrete inputs (one day plus two days). -/
theorem claim_c3_arith_through_components_witness :
    isInt64 86400000 ∧ isInt64 172800000 ∧
    TimeSpan.totalMilliseconds (TimeSpan.add 86400000 172800000) =
      wrap64 (TimeSpan.totalMilliseconds 86400000 +
        TimeSpan.totalMilliseconds 172800000) ∧
    TimeSpan.add 86400000 172800000 = f_timespan_add 86400000 172800000 :=
  ⟨by decide, by decide,
    (claim_c3_arith_through_components 86400000 172800000 (by decide)
      (by decide)).1,
    (claim_c3_arith_through_components 86400000 172800000 (by decide)
      (by decide)).2.2.1⟩

/-- C4 (counterexample to the claim as stated): dividing a `TimeSpan` by
zero does not surface an explicit failure — the code's unchecked division
produces an ordinary `TimeSpan` value, and so differs from the
spec-mandated checked division `div_checked`, which fails with `none`. -/
theorem claim_c4_counterexample :
    some (TimeSpan.div (TimeSpan.fromDays 1) 0) ≠
      div_checked (TimeSpan.fromDays 1) 0 := by
  decide

/-- C4 (amended): for every nonzero divisor (excluding the overflowing
pair `INT64_MIN / -1`, where the C++ division itself overflows), the
through-components division equals the direct quotient truncated toward
zero, and the spec-mandated checked division returns exactly that
quotient. -/
theorem claim_c4_division_truncates (t n : Int) (ht : isInt64 t)
    (hn : n ≠ 0) (hx : ¬(t = -9223372036854775808 ∧ n = -1)) :
    TimeSpan.div t n = Int.tdiv t n ∧
    div_checked t n = some (Int.tdiv t n) := by
  constructor
  · exact TimeSpan.ofComponents_to_components _ (isInt64_tdiv t n ht hn hx)
  · unfold div_checked
    rw [if_neg hn]

/-- Witness for C4 at six days divided by two (the spec's own example),
plus a truncation-toward-zero instance on a negative dividend. -/
theorem claim_c4_division_truncates_witness :
    isInt64 (TimeSpan.fromDays 6) ∧
    TimeSpan.div (TimeSpan.fromDays 6) 2 = TimeSpan.fromDays 3 ∧
    TimeSpan.div (-7) 2 = -3 :=
  ⟨by decide,
    by
      have h := (claim_c4_division_truncates (TimeSpan.fromDays 6) 2
        (by decide) (by decide) (by decide)).1
      rw [h]
      decide,
    by
      have h := (claim_c4_division_truncates (-7) 2 (by decide) (by decide)
        (by decide)).1
      rw [h]
      decide⟩

/-- C2 (evaluation at the failing input): at the most negative `int64_t`
the componentwise sign-uniformity is violated — the input is negative but
every decomposed component is positive, because the initial `int64_t`
negation overflows (wraps) at this one value. -/
theorem claim_c2_sign_violation :
    (-9223372036854775808 : Int) < 0 ∧
    TimeSpan.to_components (-9223372036854775808) =
      ⟨106751991167, 7, 12, 55, 808⟩ := by
  decide

/-- C6: calendar-field construction normalizes out-of-range day and month
values by overflow into subsequent months/years, with correct leap-year
handling: Jan 31, 2022 plus one day is Feb 1, 2022; Feb 29, 2020 plus 366
days is Mar 1, 2021; day 32 of January is Feb 1; month 13 is January of
the next year. -/
theorem claim_c6_calendar_overflow :
    DateTime.year (DateTime.add_timespan (DateTime.of_fields 2022 1 31 0 0 0 0)
      (TimeSpan.fromDays 1)) = 2022 ∧
    DateTime.month (DateTime.add_timespan (DateTime.of_fields 2022 1 31 0 0 0 0)
      (TimeSpan.fromDays 1)) = 2 ∧
    DateTime.day (DateTime.add_timespan (DateTime.of_fields 2022 1 31 0 0 0 0)
      (TimeSpan.fromDays 1)) = 1 ∧
    DateTime.year (DateTime.add_timespan (DateTime.of_fields 2020 2 29 0 0 0 0)
      (TimeSpan.fromDays 366)) = 2021 ∧
    DateTime.month (DateTime.add_timespan (DateTime.of_fields 2020 2 29 0 0 0 0)
      (TimeSpan.fromDays 366)) = 3 ∧
    DateTime.day (DateTime.add_timespan (DateTime.of_fields 2020 2 29 0 0 0 0)
      (TimeSpan.fromDays 366)) = 1 ∧
    DateTime.of_fields 2022 1 32 0 0 0 0 = DateTime.of_fields 2022 2 1 0 0 0 0 ∧
    DateTime.of_fields 2022 13 1 0 0 0 0 = DateTime.of_fields 2023 1 1 0 0 0 0 := by
  decide

/-- C7: for every epoch-millisecond value (negative values included), the
getters floor to the start of the containing day toward negative infinity
(`Int.fdiv`), and the extracted fields lie in their calendar ranges:
month 1..12, day a valid 1-based day of that month, hour 0..23,
minute/second 0..59, millisecond 0..999. -/
theorem claim_c7_getter_ranges (t : Int) :
    DateTime.dayNumber t = Int.fdiv t 86400000 ∧
    1 ≤ DateTime.month t ∧ DateTime.month t ≤ 12 ∧
    1 ≤ DateTime.day t ∧
    DateTime.day t ≤ date.last_day_of_month (DateTime.year t)
      (DateTime.month t) ∧
    0 ≤ DateTime.hour t ∧ DateTime.hour t ≤ 23 ∧
    0 ≤ DateTime.minute t ∧ DateTime.minute t ≤ 59 ∧
    0 ≤ DateTime.second t ∧ DateTime.second t ≤ 59 ∧
    0 ≤ DateTime.millisecond t ∧ DateTime.millisecond t ≤ 999 := by
  have hc := date.civil_spec (DateTime.dayNumber t)
  have hh := DateTime.hms_spec t
  simp only [DateTime.year, DateTime.month, DateTime.day]
  exact ⟨(Int.fdiv_eq_ediv t (by decide)).symm, hc.1, hc.2.1, hc.2.2.1,
    hc.2.2.2.1, hh.1, hh.2.1, hh.2.2.1, hh.2.2.2.1, hh.2.2.2.2.1,
    hh.2.2.2.2.2.1, hh.2.2.2.2.2.2.1, hh.2.2.2.2.2.2.2.1⟩

/-- C10: reconstructing a `DateTime` from the calendar components
extracted from `DateTime(t)` yields a `DateTime` whose timestamp equals
`t` — extraction and construction are mutually inverse on the whole range
where the calendar arithmetic is defined. -/
theorem claim_c10_extract_construct (t : Int) :
    DateTime.of_fields (DateTime.year t) (DateTime.month t)
      (DateTime.day t) (DateTime.hour t) (DateTime.minute t)
      (DateTime.second t) (DateTime.millisecond t) = t :=
  DateTime.extract_reconstruct t

/-- C9: `toString` renders "{days}d HH:MM:SS" when the days component is
nonzero and "HH:MM:SS" otherwise, two-digit zero-padded, with the
three-digit ".mmm" suffix exactly when the milliseconds component is
nonzero: the spec's two examples. -/
theorem claim_c9_tostring :
    TimeSpan.toString_model (TimeSpan.ofFields 1 2 3 4 5) =
      "1d 02:03:04.005".data ∧
    TimeSpan.toString_model (TimeSpan.ofFields 0 2 3 4 0) =
      "02:03:04".data := by
  decide

/-- C5: `parse` yields no value on text that does not conform to the
pattern at all ("not a date"), on invalid field content ("2022-01-XX"),
and on conforming text with trailing content. -/
theorem claim_c5_parse_failures :
    DateTime.parse "not a date".data DateTime.default_format = none ∧
    DateTime.parse "2022-01-XX".data DateTime.default_format = none ∧
    DateTime.parse "2022-01-31 12:34:56xyz".data DateTime.default_format =
      none := by
  decide

/-- For a digit value, `digitChar` produces a decimal digit character. -/
theorem digitChar_isDigit (d : Nat) (h : d < 10) :
    isDigitB (digitChar d) = true := by
  interval_cases d <;> decide

/-- `digitVal` inverts `digitChar` on digit values. -/
theorem digitVal_digitChar (d : Nat) (h : d < 10) :
    digitVal (digitChar d) = d := by
  interval_cases d <;> decide

/-- A digit character is not the minus sign. -/
theorem isDigit_ne_dash (c : Char) (h : isDigitB c = true) : c ≠ '-' := by
  intro he
  subst he
  exact absurd h (by decide)

/-- The fuel argument of `natCharsFuel` is irrelevant once it is at least
the number being rendered. -/
theorem natCharsFuel_congr (n : Nat) : ∀ f1 f2 : Nat, n ≤ f1 → n ≤ f2 →
    natCharsFuel f1 n = natCharsFuel f2 n := by
  induction n using Nat.strong_induction_on with
  | _ n IH =>
    intro f1 f2 h1 h2
    match f1, f2 with
    | 0, 0 => rfl
    | 0, f2 + 1 =>
      have hn : n = 0 := by omega
      subst hn
      simp [natCharsFuel]
    | f1 + 1, 0 =>
      have hn : n = 0 := by omega
      subst hn
      simp [natCharsFuel]
    | f1 + 1, f2 + 1 =>
      simp only [natCharsFuel]
      by_cases h : n < 10
      · rw [if_pos h, if_pos h]
      · rw [if_neg h, if_neg h]
        have hlt : n / 10 < n := by omega
        congr 1
        exact IH (n / 10) hlt f1 f2 (by omega) (by omega)

/-- The recursive unfolding of `natChars`. -/
theorem natChars_eq (n : Nat) :
    natChars n =
      if n < 10 then [digitChar n]
      else natChars (n / 10) ++ [digitChar (n % 10)] := by
  match n with
  | 0 => simp [natChars, natCharsFuel]
  | m + 1 =>
    show natCharsFuel (m + 1) (m + 1) = _
    simp only [natCharsFuel]
    by_cases h : m + 1 < 10
    · rw [if_pos h, if_pos h]
    · rw [if_neg h, if_neg h]
      congr 1
      exact natCharsFuel_congr ((m + 1) / 10) m ((m + 1) / 10) (by omega)
        (by omega)

/-- `natChars` never renders the empty string. -/
theorem natChars_ne_nil (n : Nat) : natChars n ≠ [] := by
  rw [natChars_eq]
  split_ifs <;> simp

/-- Every character rendered by `natChars` is a decimal digit. -/
theorem natChars_digits (n : Nat) :
    ∀ c ∈ natChars n, isDigitB c = true := by
  induction n using Nat.strong_induction_on with
  | _ n IH =>
    rw [natChars_eq]
    split_ifs with h
    · intro c hc
      simp only [List.mem_singleton] at hc
      subst hc
      exact digitChar_isDigit n h
    · intro c hc
      simp only [List.mem_append, List.mem_singleton] at hc
      rcases hc with hc | hc
      · exact IH (n / 10) (by omega) c hc
      · subst hc
        exact digitChar_isDigit (n % 10) (by omega)

/-- Reading a digit list one character further multiplies the accumulated
value by ten. -/
theorem charsToNat_append_singleton (l : List Char) (c : Char) :
    charsToNat (l ++ [c]) = 10 * charsToNat l + digitVal c := by
  simp [charsToNat, List.foldl_append]

/-- `charsToNat` inverts `natChars`. -/
theorem charsToNat_natChars (n : Nat) : charsToNat (natChars n) = n := by
  induction n using Nat.strong_induction_on with
  | _ n IH =>
    rw [natChars_eq]
    split_ifs with h
    · simp [charsToNat, digitVal_digitChar n h]
    · rw [charsToNat_append_singleton, IH (n / 10) (by omega),
        digitVal_digitChar (n % 10) (by omega)]
      omega

/-- Leading zeros do not change the parsed value. -/
theorem charsToNat_replicate_zero (k : Nat) (l : List Char) :
    charsToNat (List.replicate k '0' ++ l) = charsToNat l := by
  induction k with
  | zero => simp
  | succ k IH =>
    simp only [List.replicate_succ, List.cons_append]
    show List.foldl _ (10 * 0 + digitVal '0') _ = _
    simpa [charsToNat] using IH

/-- One-digit rendering. -/
theorem natChars_lt10 (v : Nat) (h : v < 10) : natChars v = [digitChar v] := by
  rw [natChars_eq, if_pos h]

/-- Two-digit rendering. -/
theorem natChars_lt100 (v : Nat) (h10 : 10 ≤ v) (h : v < 100) :
    natChars v = [digitChar (v / 10), digitChar (v % 10)] := by
  rw [natChars_eq, if_neg (by omega), natChars_lt10 (v / 10) (by omega)]
  rfl

/-- Three-digit rendering. -/
theorem natChars_lt1000 (v : Nat) (h100 : 100 ≤ v) (h : v < 1000) :
    natChars v =
      [digitChar (v / 100), digitChar (v / 10 % 10), digitChar (v % 10)] := by
  rw [natChars_eq, if_neg (by omega), natChars_lt100 (v / 10) (by omega)
    (by omega)]
  have : v / 10 / 10 = v / 100 := by omega
  rw [this]
  rfl

/-- `read2` on a two-digit zero-padded field reads exactly that field. -/
theorem read2_padNum (v : Int) (h0 : 0 ≤ v) (h1 : v < 100)
    (rest : List Char) :
    DateTime.read2 (padNum 2 v ++ rest) = some (v.toNat, rest) := by
  rw [padNum, intChars, if_neg (by omega)]
  rcases lt_or_le v.toNat 10 with h | h
  · rw [natChars_lt10 _ h]
    have hp : padLeft '0' 2 [digitChar v.toNat] = ['0', digitChar v.toNat] := by
      simp [padLeft, List.replicate]
    rw [hp]
    simp [DateTime.read2, digitChar_isDigit _ h, digitVal_digitChar _ h]
    decide
  · have hv : v.toNat < 100 := by omega
    rw [natChars_lt100 _ h hv]
    have hp : padLeft '0' 2 [digitChar (v.toNat / 10), digitChar (v.toNat % 10)]
        = [digitChar (v.toNat / 10), digitChar (v.toNat % 10)] := by
      simp [padLeft]
    rw [hp]
    simp [DateTime.read2, digitChar_isDigit _ (by omega : v.toNat / 10 < 10),
      digitChar_isDigit _ (by omega : v.toNat % 10 < 10),
      digitVal_digitChar _ (by omega : v.toNat / 10 < 10),
      digitVal_digitChar _ (by omega : v.toNat % 10 < 10)]
    omega

/-- `padNum 3` of a value in 0..999 is exactly three characters. -/
theorem padNum3_shape (v : Int) (h0 : 0 ≤ v) (h1 : v < 1000) :
    ∃ a b c : Char, padNum 3 v = [a, b, c] ∧ isDigitB a = true ∧
      isDigitB b = true ∧ isDigitB c = true ∧
      100 * digitVal a + 10 * digitVal b + digitVal c = v.toNat := by
  rw [padNum, intChars, if_neg (by omega)]
  rcases lt_or_le v.toNat 10 with h | h
  · refine ⟨'0', '0', digitChar v.toNat, ?_, by decide, by decide,
      digitChar_isDigit _ h, ?_⟩
    · rw [natChars_lt10 _ h]
      simp [padLeft, List.replicate]
    · rw [digitVal_digitChar _ h]
      have : digitVal '0' = 0 := by decide
      omega
  · rcases lt_or_le v.toNat 100 with h2 | h2
    · refine ⟨'0', digitChar (v.toNat / 10), digitChar (v.toNat % 10), ?_,
        by decide, digitChar_isDigit _ (by omega),
        digitChar_isDigit _ (by omega), ?_⟩
      · rw [natChars_lt100 _ h h2]
        simp [padLeft, List.replicate]
      · rw [digitVal_digitChar _ (by omega), digitVal_digitChar _ (by omega)]
        have : digitVal '0' = 0 := by decide
        omega
    · have hv : v.toNat < 1000 := by omega
      refine ⟨digitChar (v.toNat / 100), digitChar (v.toNat / 10 % 10),
        digitChar (v.toNat % 10), ?_, digitChar_isDigit _ (by omega),
        digitChar_isDigit _ (by omega), digitChar_isDigit _ (by omega), ?_⟩
      · rw [natChars_lt1000 _ h2 hv]
        simp [padLeft]
      · rw [digitVal_digitChar _ (by omega), digitVal_digitChar _ (by omega),
          digitVal_digitChar _ (by omega)]
        omega

/-- `read3` on an explicit three-digit list reads its value. -/
theorem read3_digits (a b c : Char) (rest : List Char)
    (ha : isDigitB a = true) (hb : isDigitB b = true)
    (hc : isDigitB c = true) :
    DateTime.read3 (a :: b :: c :: rest) =
      some (100 * digitVal a + 10 * digitVal b + digitVal c, rest) := by
  simp [DateTime.read3, ha, hb, hc]

/-- `spanDigits` splits a digit prefix exactly at the first non-digit. -/
theorem spanDigits_append (ds rest : List Char)
    (hds : ∀ c ∈ ds, isDigitB c = true)
    (hrest : ∀ c l', rest = c :: l' → isDigitB c = false) :
    spanDigits (ds ++ rest) = (ds, rest) := by
  induction ds with
  | nil =>
    simp only [List.nil_append]
    match rest with
    | [] => rfl
    | c :: l' =>
      simp [spanDigits, hrest c l' rfl]
  | cons d ds' IH =>
    simp only [List.cons_append, spanDigits,
      hds d (List.mem_cons_self d ds'), if_pos, List.append_eq]
    rw [IH (fun c hc => hds c (List.mem_cons_of_mem d hc))]

/-- `readNat` on a zero-padded rendered number followed by a non-digit
reads exactly that number. -/
theorem readNat_pad (k n : Nat) (rest : List Char)
    (hrest : ∀ c l', rest = c :: l' → isDigitB c = false) :
    DateTime.readNat (padLeft '0' k (natChars n) ++ rest) = some (n, rest) := by
  have hds : ∀ c ∈ padLeft '0' k (natChars n), isDigitB c = true := by
    intro c hc
    rw [padLeft, List.mem_append] at hc
    rcases hc with hc | hc
    · rw [List.eq_of_mem_replicate hc]
      decide
    · exact natChars_digits n c hc
  have hne : padLeft '0' k (natChars n) ≠ [] := by
    simp [padLeft, natChars_ne_nil n]
  simp only [DateTime.readNat, spanDigits_append _ _ hds hrest]
  simp [hne, padLeft, charsToNat_replicate_zero, charsToNat_natChars,
    natChars_ne_nil n]

/-- `readInt` on the rendered `%Y` year text followed by a non-digit reads
exactly the year, sign included. -/
theorem readInt_yearChars (y : Int) (rest : List Char)
    (hrest : ∀ c l', rest = c :: l' → isDigitB c = false) :
    DateTime.readInt (DateTime.yearChars y ++ rest) = some (y, rest) := by
  rw [DateTime.yearChars]
  split_ifs with hy
  · simp only [List.cons_append, DateTime.readInt, if_pos]
    rw [readNat_pad 4 y.natAbs rest hrest]
    have : ((y.natAbs : Int)) = -y := by omega
    simp [this]
  · have hne : padLeft '0' 4 (natChars y.toNat) ≠ [] := by
      simp [padLeft, natChars_ne_nil]
    have hds : ∀ c ∈ padLeft '0' 4 (natChars y.toNat), isDigitB c = true := by
      intro c hc
      rw [padLeft, List.mem_append] at hc
      rcases hc with hc | hc
      · rw [List.eq_of_mem_replicate hc]
        decide
      · exact natChars_digits _ c hc
    obtain ⟨c, cs, hsh⟩ : ∃ c cs, padLeft '0' 4 (natChars y.toNat) = c :: cs := by
      match h : padLeft '0' 4 (natChars y.toNat) with
      | [] => exact absurd h hne
      | c :: cs => exact ⟨c, cs, rfl⟩
    have hcd : isDigitB c = true := hds c (by rw [hsh]; exact List.mem_cons_self c cs)
    rw [hsh, List.cons_append, DateTime.readInt,
      if_neg (isDigit_ne_dash c hcd), ← List.cons_append, ← hsh,
      readNat_pad 4 y.toNat rest hrest]
    have : ((y.toNat : Int)) = y := by omega
    simp [this]

/-- The millisecond-precision rendering of the default format, by
definitional unfolding of the format walk. -/
theorem to_stream_default_shape (t : Int) :
    DateTime.to_stream true DateTime.default_format t =
      DateTime.yearChars (DateTime.year t) ++ '-' ::
        (padNum 2 (DateTime.month t) ++ '-' ::
          (padNum 2 (DateTime.day t) ++ ' ' ::
            (padNum 2 (DateTime.hour t) ++ ':' ::
              (padNum 2 (DateTime.minute t) ++ ':' ::
                ((padNum 2 (DateTime.second t) ++ '.' ::
                  padNum 3 (DateTime.millisecond t)) ++ []))))) := rfl

/-- One token-field parsing step. -/
theorem fs_tok (b : Char) (rest input r : List Char)
    (st st2 : DateTime.ParseFields)
    (h : DateTime.readTok true b input st = some (st2, r)) :
    DateTime.from_stream true ('%' :: b :: rest) input st =
      DateTime.from_stream true rest r st2 := by
  have he : DateTime.from_stream true ('%' :: b :: rest) input st =
      (DateTime.readTok true b input st).bind (fun p =>
        DateTime.from_stream true rest p.2 p.1) := rfl
  rw [he, h]
  rfl

/-- `readTok` on `%Y`. -/
theorem readTok_Y (input r : List Char) (st : DateTime.ParseFields) (v : Int)
    (h : DateTime.readInt input = some (v, r)) :
    DateTime.readTok true 'Y' input st = some ({ st with y := v }, r) := by
  simp [DateTime.readTok, h]

/-- `readTok` on `%m`. -/
theorem readTok_m (input r : List Char) (st : DateTime.ParseFields) (v : Nat)
    (h : DateTime.read2 input = some (v, r)) :
    DateTime.readTok true 'm' input st = some ({ st with m := v }, r) := by
  simp [DateTime.readTok, h]

/-- `readTok` on `%d`. -/
theorem readTok_d (input r : List Char) (st : DateTime.ParseFields) (v : Nat)
    (h : DateTime.read2 input = some (v, r)) :
    DateTime.readTok true 'd' input st = some ({ st with d := v }, r) := by
  simp [DateTime.readTok, h]

/-- `readTok` on `%H`. -/
theorem readTok_H (input r : List Char) (st : DateTime.ParseFields) (v : Nat)
    (h : DateTime.read2 input = some (v, r)) :
    DateTime.readTok true 'H' input st = some ({ st with h := v }, r) := by
  simp [DateTime.readTok, h]

/-- `readTok` on `%M`. -/
theorem readTok_M (input r : List Char) (st : DateTime.ParseFields) (v : Nat)
    (h : DateTime.read2 input = some (v, r)) :
    DateTime.readTok true 'M' input st = some ({ st with mi := v }, r) := by
  simp [DateTime.readTok, h]

/-- `readTok` on millisecond-mode `%S`: two second digits, a period, and
exactly three fraction digits. -/
theorem readTok_S (input r2 r3 : List Char) (st : DateTime.ParseFields)
    (v w : Nat) (h2 : DateTime.read2 input = some (v, '.' :: r2))
    (h3 : DateTime.read3 r2 = some (w, r3)) :
    DateTime.readTok true 'S' input st =
      some ({ st with s := v, ms := w }, r3) := by
  simp [DateTime.readTok, h2, h3]

/-- A literal-character parsing step: a non-`%` format character must
match the next input character exactly. -/
theorem fs_lit (a : Char) (h : ¬ a = '%') (rest irest : List Char)
    (st : DateTime.ParseFields) :
    DateTime.from_stream true (a :: rest) (a :: irest) st =
      DateTime.from_stream true rest irest st := by
  rw [DateTime.from_stream.eq_def]
  simp [h]

/-- The terminal step: an exhausted pattern on exhausted input succeeds. -/
theorem fs_end (st : DateTime.ParseFields) :
    DateTime.from_stream true [] [] st = some st := rfl

/-- Every month has at most 31 days. -/
theorem date.month_len_le (leap : Bool) (m : Int) :
    date.month_len leap m ≤ 31 := by
  cases leap <;> (unfold date.month_len; split_ifs <;> omega)

/-- The year field followed by the literal '-' separator parses back
exactly. -/
theorem readInt_yearChars_dash (y : Int) (xs : List Char) :
    DateTime.readInt (DateTime.yearChars y ++ '-' :: xs) =
      some (y, '-' :: xs) := by
  refine readInt_yearChars y ('-' :: xs) ?_
  intro c l' hcl
  injection hcl with h1 h2
  subst h1
  decide

/-- Parsing the default-format millisecond rendering of `t` recovers
every calendar field of `t`. -/
theorem from_stream_roundtrip (t : Int) :
    DateTime.from_stream true DateTime.default_format
      (DateTime.to_stream true DateTime.default_format t)
      ⟨0, 1, 1, 0, 0, 0, 0⟩ =
    some ⟨DateTime.year t, (DateTime.month t).toNat, (DateTime.day t).toNat,
      (DateTime.hour t).toNat, (DateTime.minute t).toNat,
      (DateTime.second t).toNat, (DateTime.millisecond t).toNat⟩ := by
  have hc := date.civil_spec (DateTime.dayNumber t)
  have hh := DateTime.hms_spec t
  have hm : 0 ≤ DateTime.month t ∧ DateTime.month t < 100 := by
    simp only [DateTime.month]
    omega
  have hd : 0 ≤ DateTime.day t ∧ DateTime.day t < 100 := by
    have hlast := date.month_len_le
      (date.is_leap (date.civil_from_days (DateTime.dayNumber t)).1)
      (date.civil_from_days (DateTime.dayNumber t)).2.1
    simp only [date.last_day_of_month] at hc
    simp only [DateTime.day]
    omega
  have hH : 0 ≤ DateTime.hour t ∧ DateTime.hour t < 100 := by omega
  have hMi : 0 ≤ DateTime.minute t ∧ DateTime.minute t < 100 := by omega
  have hS : 0 ≤ DateTime.second t ∧ DateTime.second t < 100 := by omega
  have hMs : 0 ≤ DateTime.millisecond t ∧ DateTime.millisecond t < 1000 := by
    omega
  obtain ⟨a, b, c, hpad3, hda, hdb, hdc, hval⟩ :=
    padNum3_shape (DateTime.millisecond t) hMs.1 hMs.2
  rw [to_stream_default_shape, List.append_nil, hpad3]
  rw [show DateTime.default_format =
    '%' :: 'Y' :: '-' :: '%' :: 'm' :: '-' :: '%' :: 'd' :: ' ' ::
    '%' :: 'H' :: ':' :: '%' :: 'M' :: ':' :: '%' :: 'S' :: [] from rfl]
  rw [fs_tok _ _ _ _ _ _ (readTok_Y _ _ _ _ (readInt_yearChars_dash _ _))]
  rw [fs_lit '-' (by decide)]
  rw [fs_tok _ _ _ _ _ _ (readTok_m _ _ _ _ (read2_padNum _ hm.1 hm.2 _))]
  rw [fs_lit '-' (by decide)]
  rw [fs_tok _ _ _ _ _ _ (readTok_d _ _ _ _ (read2_padNum _ hd.1 hd.2 _))]
  rw [fs_lit ' ' (by decide)]
  rw [fs_tok _ _ _ _ _ _ (readTok_H _ _ _ _ (read2_padNum _ hH.1 hH.2 _))]
  rw [fs_lit ':' (by decide)]
  rw [fs_tok _ _ _ _ _ _ (readTok_M _ _ _ _ (read2_padNum _ hMi.1 hMi.2 _))]
  rw [fs_lit ':' (by decide)]
  rw [fs_tok _ _ _ _ _ _ (readTok_S _ _ _ _ _ _
    (read2_padNum _ hS.1 hS.2 _) (read3_digits a b c [] hda hdb hdc))]
  rw [fs_end, hval]

/-- The default-format millisecond rendering always has a period as its
4th-from-last character. -/
theorem hasMsDot_shape (t : Int) :
    DateTime.hasMsDot (DateTime.to_stream true DateTime.default_format t) =
      true := by
  have hh := DateTime.hms_spec t
  have hMs : 0 ≤ DateTime.millisecond t ∧ DateTime.millisecond t < 1000 := by
    omega
  obtain ⟨a, b, c, hpad3, _, _, _, _⟩ :=
    padNum3_shape (DateTime.millisecond t) hMs.1 hMs.2
  rw [to_stream_default_shape, List.append_nil, hpad3]
  simp [DateTime.hasMsDot, List.reverse_append]

/-- C8: for every Instant, parsing its millisecond-inclusive formatted
string with the same (default) pattern succeeds and yields the same
timestamp, with millisecond parsing selected by the 4th-from-last
character of the text being a period. -/
theorem claim_c8_parse_format_roundtrip (t : Int) :
    DateTime.hasMsDot
      (DateTime.format_w_milliseconds t DateTime.default_format) = true ∧
    DateTime.parse (DateTime.format_w_milliseconds t DateTime.default_format)
      DateTime.default_format = some t := by
  have hdot : DateTime.hasMsDot
      (DateTime.format_w_milliseconds t DateTime.default_format) = true :=
    hasMsDot_shape t
  refine ⟨hdot, ?_⟩
  have hc := date.civil_spec (DateTime.dayNumber t)
  have hh := DateTime.hms_spec t
  have cm : ((DateTime.month t).toNat : Int) = DateTime.month t :=
    Int.toNat_of_nonneg (by simp only [DateTime.month]; omega)
  have cd : ((DateTime.day t).toNat : Int) = DateTime.day t :=
    Int.toNat_of_nonneg (by simp only [DateTime.day]; omega)
  have cH : ((DateTime.hour t).toNat : Int) = DateTime.hour t :=
    Int.toNat_of_nonneg (by omega)
  have cMi : ((DateTime.minute t).toNat : Int) = DateTime.minute t :=
    Int.toNat_of_nonneg (by omega)
  have cS : ((DateTime.second t).toNat : Int) = DateTime.second t :=
    Int.toNat_of_nonneg (by omega)
  have cMs : ((DateTime.millisecond t).toNat : Int) = DateTime.millisecond t :=
    Int.toNat_of_nonneg (by omega)
  simp only [DateTime.parse, DateTime.format_w_milliseconds] at hdot ⊢
  rw [hdot, from_stream_roundtrip t]
  simp only [cm, cd, cH, cMi, cS, cMs]
  exact congrArg some (DateTime.extract_reconstruct t)
